import Mathlib

/-!
# Pokemon list application (`src/App.jsx`)

A shallow embedding of the single source file of the repository: the load
cycle `fetchPokemonData` (listing fetch, defensive copy, sort by name,
fan-out of detail fetches joined by `Promise.all`, commit or error) and the
two render functions `App` and `Pokemon`.

Conventions of the embedding.

* A rejected promise or a thrown exception is the `error` side of `Except`;
  the `try`/`catch` of the load cycle is a `match` on it.
* `String.prototype.localeCompare` is supplied by the JavaScript runtime and
  depends on the host locale; it is a parameter `cmp : String → String → Int`
  of every definition that sorts.
* `Array.prototype.sort` and `Promise.all` are runtime primitives; they are
  modelled by `Array_sort` and `promiseAll` below.
* The order in which the concurrent detail requests settle is not fixed by
  the program; it is a parameter `order : List Nat` (positions in the array
  handed to `Promise.all`, earliest settlement first).
* Which pairs `Array.prototype.sort` hands to the comparator is left to the
  engine. It matters only when a call of the comparator throws, which needs a
  `name` that is not a string; it is a parameter `calls : Comparisons`.
* A number placed in JSX is a child of its element as a number; turning it
  into text is the work of the renderer, a parameter `numberToString` of the
  observations that read text.
-/

namespace PokemonApp

/-! ## Data model -/

/-- A failure value: what a rejected request or a thrown exception carries.
The view reads only its `message`. -/
structure Err where
  message : String
deriving DecidableEq, Repr

/-- One entry of the listing response: `{ name, url }`. -/
structure SummaryRef where
  name : String
  url : String
deriving DecidableEq, Repr

/-- The `sprites` object of a detail record. -/
structure Sprites where
  front_default : String
deriving DecidableEq, Repr

/-- The body of a detail response, restricted to the fields the program reads.
`id` and `base_experience` are numbers with integer values. -/
structure DetailRecord where
  id : Int
  name : String
  base_experience : Int
  sprites : Sprites
deriving DecidableEq, Repr

/-- The response of a detail request; the program reads `detailResponse.data`. -/
structure DetailResponse where
  data : DetailRecord
deriving DecidableEq, Repr

/-- The value of a `name` property as received: a string, or another value,
given by the string it converts to (what `localeCompare` receives when the
value is its argument) and the exception raised by calling `.localeCompare`
on it. -/
inductive NameValue where
  | str (s : String)
  | other (text : String) (thrown : Err)
deriving DecidableEq, Repr

/-- The string a `name` value converts to. -/
def NameValue.text : NameValue → String
  | .str s => s
  | .other text _ => text

/-- The `name` of an entry that has none: `undefined`. -/
def NameValue.undefined : NameValue :=
  .other "undefined" ⟨"Cannot read properties of undefined (reading 'localeCompare')"⟩

/-- One entry of a listing whose names are not all strings. -/
structure Entry where
  name : NameValue
  url : String
deriving DecidableEq, Repr

/-- Why a listing response does not yield references `{ name : string, url }`:
reading or spreading `response.data.results` throws (line 26), or the array is
there and some entry carries a `name` that is not a string. -/
inductive Unusable where
  | unreadable (e : Err)
  | illTyped (entries : List Entry)

/-- The response of the listing request. `results` is what lines 26-34 find in
`response.data.results`: the references it holds, or the reason it holds none. -/
structure Response where
  results : Except Unusable (List SummaryRef)

/-- The HTTP backend seen through `axios.get`: the listing endpoint and the
detail endpoint, each either resolving with a response or rejecting. -/
structure Backend where
  listing : String → Except Err Response
  detail : String → Except Err DetailResponse

/-- Line 7: the listing endpoint. -/
def POKEMON_API_URL : String := "https://pokeapi.co/api/v2/pokemon?limit=48"

/-- The three `useState` cells of `App` (lines 13-15). -/
structure State where
  pokemonList : List DetailRecord
  loading : Bool
  error : Option Err
deriving DecidableEq, Repr

/-- Initial values of the three cells: `useState([])`, `useState(true)`,
`useState(null)`. -/
def State.initial : State := ⟨[], true, none⟩

/-! ## Runtime primitives -/

/-- `Array.prototype.sort(compareFn)`: a stable sort that places `a` before
`b` when `compareFn a b ≤ 0` decides so. Under a consistent comparator every
stable sort returns the same array, computed here by insertion. -/
def Array_sort {α : Type} (compareFn : α → α → Int) (xs : List α) : List α :=
  xs.insertionSort (fun a b => compareFn a b ≤ 0)

/-- The comparator of line 34: `(a, b) => a.name.localeCompare(b.name)`. -/
def byName (cmp : String → String → Int) (a b : SummaryRef) : Int :=
  cmp a.name b.name

/-- The comparator of line 34 on entries whose names need not be strings:
`a.name.localeCompare(b.name)` throws when `a.name` is not a string, and
otherwise compares it with `b.name` converted to a string. -/
def byNameEntry (cmp : String → String → Int) (a b : Entry) : Except Err Int :=
  match a.name with
  | .other _ thrown => .error thrown
  | .str s => .ok (cmp s b.name.text)

/-- The calls of the comparator that the engine makes while it sorts an array,
in call order, each as the pair (receiver, argument). -/
abbrev Comparisons := List Entry → List (Entry × Entry)

/-- The exception of the first call of the comparator that throws. -/
def firstThrow (cmp : String → String → Int) (made : List (Entry × Entry)) : Option Err :=
  made.findSome? (fun p =>
    match byNameEntry cmp p.1 p.2 with
    | .error err => some err
    | .ok _ => none)

/-- Line 34 on entries whose names need not be strings: an exception of the
comparator leaves `sort`; when no call throws, the array is sorted as
`Array_sort` sorts, by the strings the names convert to. -/
def sortEntries (cmp : String → String → Int) (calls : Comparisons) (entries : List Entry) :
    Except Err (List Entry) :=
  match firstThrow cmp (calls entries) with
  | some err => .error err
  | none => .ok (Array_sort (fun a b => cmp a.name.text b.name.text) entries)

/-- An entry seen as a reference; the load cycle reads only `url` after the sort. -/
def Entry.toRef (e : Entry) : SummaryRef := ⟨e.name.text, e.url⟩

/-- Array objects in memory, addressed by position. -/
abbrev Heap := List (List SummaryRef)

/-- Allocate a fresh array holding `xs`; returns the new heap and the address. -/
def Heap.alloc (h : Heap) (xs : List SummaryRef) : Heap × Nat :=
  (h ++ [xs], h.length)

/-- Elements of the array stored at address `a`. -/
def Heap.read (h : Heap) (a : Nat) : List SummaryRef :=
  h.getD a []

/-- In-place `sort` of the array stored at address `a`. -/
def Heap.sortInPlace (compareFn : SummaryRef → SummaryRef → Int) (h : Heap) (a : Nat) : Heap :=
  h.set a (Array_sort compareFn (h.read a))

/-- Bookkeeping of `Promise.all`: the slots of the result array, the number
of input promises not yet fulfilled, and the settlement of the aggregate
promise once it has one. -/
structure AllState (ε α : Type) where
  values : List (Option α)
  remaining : Nat
  result : Option (Except ε (List α))

/-- State of `Promise.all` right after it is called on `n` promises. On an
empty input the aggregate promise is fulfilled with the empty array. -/
def AllState.init (ε α : Type) (n : Nat) : AllState ε α :=
  ⟨List.replicate n none, n, if n = 0 then some (.ok []) else none⟩

/-- Settlement of the input promise at position `i`. A rejection rejects the
aggregate promise unless it is already settled. A fulfilment stores the value
in slot `i` (once), decrements the counter, and when the counter reaches zero
fulfils the aggregate promise with the array of values. -/
def AllState.settle {ε α : Type} (outcomes : List (Except ε α)) (st : AllState ε α) (i : Nat) :
    AllState ε α :=
  match outcomes[i]? with
  | none => st
  | some (.error e) =>
    match st.result with
    | none => { st with result := some (.error e) }
    | some _ => st
  | some (.ok v) =>
    match st.values[i]? with
    | some (some _) => st
    | _ =>
      let values := st.values.set i (some v)
      let remaining := st.remaining - 1
      if remaining = 0 then
        match st.result with
        | none => ⟨values, remaining, some (.ok (values.filterMap id))⟩
        | some r => ⟨values, remaining, some r⟩
      else ⟨values, remaining, st.result⟩

/-- `Promise.all` over promises whose eventual outcomes are `outcomes`,
settling in the order `order`: the settlement of the aggregate promise, or
`none` while it is still pending after all of `order` has happened. -/
def promiseAll {ε α : Type} (outcomes : List (Except ε α)) (order : List Nat) :
    Option (Except ε (List α)) :=
  (order.foldl (AllState.settle outcomes) (AllState.init ε α outcomes.length)).result

/-! ## The load cycle -/

/-- Address of the array `response.data.results` in the heap of a load cycle. -/
def resultsAddr : Nat := 0

/-- Lines 26 and 34: `const sortedArray = [...results]` allocates a copy,
`sortedArray.sort(...)` sorts that copy in place. Returns the heap and the
address of `sortedArray`. -/
def copyAndSort (cmp : String → String → Int) (h : Heap) (src : Nat) : Heap × Nat :=
  let (h1, sortedArray) := h.alloc (h.read src)
  (h1.sortInPlace (byName cmp) sortedArray, sortedArray)

/-- Contents of `sortedArray` after line 34, for a listing holding `results`. -/
def sortedArray (cmp : String → String → Int) (results : List SummaryRef) : List SummaryRef :=
  let (h, a) := copyAndSort cmp [results] resultsAddr
  h.read a

/-- The async callback of lines 40-43: request the detail of one reference
and return the `data` of the response; a rejected request rejects the promise. -/
def fetchDetail (b : Backend) (pokemon : SummaryRef) : Except Err DetailRecord :=
  match b.detail pokemon.url with
  | .error err => .error err
  | .ok detailResponse => .ok detailResponse.data

/-- The `catch` block, lines 48-51: `setError(err); setLoading(false)`. -/
def onCatch (s : State) (err : Err) : State :=
  { { s with error := some err } with loading := false }

/-- The success path, lines 46-47: `setPokemonList(pokemonDetails);
setLoading(false)`. -/
def onLoaded (s : State) (pokemonDetails : List DetailRecord) : State :=
  { { s with pokemonList := pokemonDetails } with loading := false }

/-- What one load cycle leaves behind: the three state cells, the URLs passed
to `axios.get` in call order, and the heap of array objects. -/
structure Run where
  state : State
  requests : List String
  heap : Heap

/-- Lines 36-51, once `sortedArray` holds `sorted`: one detail request per
reference in that order, `Promise.all` over them, then the success path or the
`catch` block; the cycle stays pending while `Promise.all` is. -/
def fanOut (b : Backend) (order : List Nat) (s : State) (sorted : List SummaryRef)
    (heap : Heap) : Run :=
  let requests := POKEMON_API_URL :: sorted.map (fun pokemon => pokemon.url)
  let outcomes := sorted.map (fetchDetail b)
  match promiseAll outcomes order with
  | none => ⟨s, requests, heap⟩
  | some (.error err) => ⟨onCatch s err, requests, heap⟩
  | some (.ok pokemonDetails) => ⟨onLoaded s pokemonDetails, requests, heap⟩

/-- Lines 21-52: one load cycle started from state `s`. On a listing with a
name that is not a string the heap records the two arrays with the entries
seen as references; when the sort throws, the copy is abandoned and recorded
as it was allocated. -/
def fetchPokemonData (cmp : String → String → Int) (calls : Comparisons) (b : Backend)
    (order : List Nat) (s : State) : Run :=
  match b.listing POKEMON_API_URL with
  | .error err => ⟨onCatch s err, [POKEMON_API_URL], []⟩
  | .ok response =>
    match response.results with
    | .error (.unreadable err) => ⟨onCatch s err, [POKEMON_API_URL], []⟩
    | .error (.illTyped entries) =>
      let copied : Heap := [entries.map Entry.toRef, entries.map Entry.toRef]
      match sortEntries cmp calls entries with
      | .error err => ⟨onCatch s err, [POKEMON_API_URL], copied⟩
      | .ok sorted =>
        fanOut b order s (sorted.map Entry.toRef)
          [entries.map Entry.toRef, sorted.map Entry.toRef]
    | .ok results =>
      let (heap, a) := copyAndSort cmp [results] resultsAddr
      fanOut b order s (heap.read a) heap

/-- The detail requests of a load cycle: every request after the listing request. -/
def detailRequests (run : Run) : List String := run.requests.drop 1

/-! ## Rendering -/

/-- An element tree as a component returns it: text children, number children,
and elements with attributes and children. -/
inductive Node where
  | text : String → Node
  | number : Int → Node
  | elem : String → List (String × String) → List Node → Node

/-- Lines 77-91: the card of one detail record. -/
def Pokemon (data : DetailRecord) : Node :=
  .elem "div" [("className", "pokemon-card")]
    [ .elem "img" [("src", data.sprites.front_default), ("alt", "Imagem do " ++ data.name)] [],
      .elem "span" []
        [ .elem "h3" [] [.text data.name],
          .elem "div" [] [.text "EXP: ", .number data.base_experience] ] ]

/-- Lines 57-73: the view of `App` for the current state cells. The `key` prop
of line 69 is consumed by React when it reconciles the list and is not part of
the rendered tree. -/
def App (s : State) : Node :=
  if s.loading then .elem "div" [] [.text "Carregando..."]
  else
    match s.error with
    | some error => .elem "div" [] [.text "Erro: ", .text error.message]
    | none =>
      .elem "div" [("className", "App")]
        [ .elem "h1" [] [.text "Pokémons"],
          .elem "hr" [] [],
          .elem "div" [("className", "pokemon-container")] (s.pokemonList.map Pokemon) ]

/-! ## Observations on rendered trees -/

mutual
/-- Elements carrying the given `className`, in document order. -/
def Node.byClass (c : String) : Node → List Node
  | .text _ => []
  | .number _ => []
  | .elem tag attrs children =>
    (if attrs.lookup "className" = some c then [Node.elem tag attrs children] else [])
      ++ Node.byClassList c children
/-- Elements carrying the given `className` in a list of siblings. -/
def Node.byClassList (c : String) : List Node → List Node
  | [] => []
  | n :: ns => Node.byClass c n ++ Node.byClassList c ns
end

mutual
/-- Elements with the given tag, in document order. -/
def Node.byTag (t : String) : Node → List Node
  | .text _ => []
  | .number _ => []
  | .elem tag attrs children =>
    (if tag = t then [Node.elem tag attrs children] else []) ++ Node.byTagList t children
/-- Elements with the given tag in a list of siblings. -/
def Node.byTagList (t : String) : List Node → List Node
  | [] => []
  | n :: ns => Node.byTag t n ++ Node.byTagList t ns
end

mutual
/-- The text a tree shows, in document order, when the renderer turns number
children into text with `numberToString`. -/
def Node.textContent (numberToString : Int → String) : Node → String
  | .text s => s
  | .number n => numberToString n
  | .elem _ _ children => Node.textContentList numberToString children
/-- Text shown by a list of siblings. -/
def Node.textContentList (numberToString : Int → String) : List Node → String
  | [] => ""
  | n :: ns => Node.textContent numberToString n ++ Node.textContentList numberToString ns
end

/-- The decimal numeral of an integer: what the conversion of a number to
text yields on the integers of magnitude below `2 ^ 53`. Used to read the text
of concrete cards. -/
def decimal (n : Int) : String := toString n

/-- Value of an attribute of an element. -/
def Node.attr (k : String) : Node → Option String
  | .text _ => none
  | .number _ => none
  | .elem _ attrs _ => attrs.lookup k

/-- The cards shown by a view. -/
def cards (view : Node) : List Node := view.byClass "pokemon-card"

/-! ## Settlement order of the detail requests -/

/-- The rejection, if any, with which the promise at position `i` settles. -/
def rejectionAt {ε α : Type} (outcomes : List (Except ε α)) (i : Nat) : Option ε :=
  match outcomes[i]? with
  | some (.error e) => some e
  | _ => none

/-- The first rejection met when the promises settle in the order `order`. -/
def firstRejection {ε α : Type} (outcomes : List (Except ε α)) (order : List Nat) : Option ε :=
  order.findSome? (rejectionAt outcomes)

/-- Every one of `n` concurrent requests settles within `order`. -/
def AllSettle (n : Nat) (order : List Nat) : Prop :=
  ∀ i, i < n → i ∈ order

instance (n : Nat) (order : List Nat) : Decidable (AllSettle n order) :=
  inferInstanceAs (Decidable (∀ i, i < n → i ∈ order))

/-- Invariant of the bookkeeping of `Promise.all` after the settlements `S`. -/
structure AllInv {ε α : Type} (outcomes : List (Except ε α)) (S : List Nat)
    (st : AllState ε α) : Prop where
  len : st.values.length = outcomes.length
  sound : ∀ (i : Nat) (v : α), st.values[i]? = some (some v) → outcomes[i]? = some (Except.ok v)
  complete : ∀ i ∈ S, ∀ v : α, outcomes[i]? = some (Except.ok v) → st.values[i]? = some (some v)
  count : st.remaining + st.values.countP Option.isSome = outcomes.length
  res : st.result = match firstRejection outcomes S with
    | some e => some (Except.error e)
    | none => if st.remaining = 0 then some (Except.ok (st.values.filterMap id)) else none

/-! ## A concrete collation -/

/-- Comparison of two strings by code points, shorter prefix first. -/
def codePointCompare : List Char → List Char → Int
  | [], [] => 0
  | [], _ :: _ => -1
  | _ :: _, [] => 1
  | a :: as, b :: bs =>
    if a.toNat < b.toNat then -1
    else if b.toNat < a.toNat then 1
    else codePointCompare as bs

/-- An instance of `localeCompare`: the ordinal collation, which orders
strings by code points. Used to run the load cycle on concrete listings. -/
def ordinalCompare (a b : String) : Int := codePointCompare a.data b.data

/-- A comparator is consistent when it is total and transitive as an order:
what `Array.prototype.sort` requires and `localeCompare` provides. -/
structure Consistent (cmp : String → String → Int) : Prop where
  total : ∀ a b, cmp a b ≤ 0 ∨ cmp b a ≤ 0
  trans : ∀ a b c, cmp a b ≤ 0 → cmp b c ≤ 0 → cmp a c ≤ 0

/-! ## Concrete backends -/

/-- A mock backend: a fixed outcome for the listing request and a table of
outcomes for detail requests; a URL missing from the table is rejected. -/
def mockBackend (listing : Except Unusable (List SummaryRef))
    (details : List (String × Except Err DetailRecord)) : Backend where
  listing := fun _ => .ok ⟨listing⟩
  detail := fun url =>
    match details.lookup url with
    | some (.ok d) => .ok ⟨d⟩
    | some (.error e) => .error e
    | none => .error ⟨"Request failed with status code 404"⟩

/-- A backend whose listing request is rejected. -/
def offlineBackend : Backend where
  listing := fun _ => .error ⟨"Network Error"⟩
  detail := fun _ => .error ⟨"Network Error"⟩

/-- Detail record used by the scenarios. -/
def record (id : Int) (name : String) (exp : Int) : DetailRecord :=
  ⟨id, name, exp, ⟨"sprites/" ++ name ++ ".png"⟩⟩

/-- Scenario A: bulbasaur and pikachu listed, both detail fetches succeed. -/
def scenarioA : Backend :=
  mockBackend (.ok [⟨"bulbasaur", "pokemon/1"⟩, ⟨"pikachu", "pokemon/25"⟩])
    [("pokemon/1", .ok (record 1 "bulbasaur" 64)), ("pokemon/25", .ok (record 25 "pikachu" 112))]

/-- Scenario A with the listing in the opposite order. -/
def scenarioA_reversed : Backend :=
  mockBackend (.ok [⟨"pikachu", "pokemon/25"⟩, ⟨"bulbasaur", "pokemon/1"⟩])
    [("pokemon/1", .ok (record 1 "bulbasaur" 64)), ("pokemon/25", .ok (record 25 "pikachu" 112))]

/-- Scenario B: squirtle and charmander listed, the charmander fetch fails. -/
def scenarioB : Backend :=
  mockBackend (.ok [⟨"squirtle", "pokemon/7"⟩, ⟨"charmander", "pokemon/4"⟩])
    [("pokemon/7", .ok (record 7 "squirtle" 63)), ("pokemon/4", .error ⟨"timeout of 1000ms exceeded"⟩)]

/-- Scenario C: an empty listing. -/
def scenarioC : Backend := mockBackend (.ok []) []

/-- A listing whose `results` cannot be read. -/
def malformedBackend : Backend :=
  mockBackend (.error (.unreadable ⟨"response.data.results is not iterable"⟩)) []

/-- A listing whose two entries have no `name`. -/
def namelessBackend : Backend :=
  mockBackend (.error (.illTyped [⟨.undefined, "pokemon/1"⟩, ⟨.undefined, "pokemon/25"⟩]))
    [("pokemon/1", .ok (record 1 "bulbasaur" 64)), ("pokemon/25", .ok (record 25 "pikachu" 112))]

/-- A listing whose only entry has no `name`. -/
def loneNamelessBackend : Backend :=
  mockBackend (.error (.illTyped [⟨.undefined, "pokemon/1"⟩]))
    [("pokemon/1", .ok (record 1 "bulbasaur" 64))]

/-- An engine that hands each element of the array, from the second on, to the
comparator as receiver, with its predecessor as argument. -/
def adjacentCalls : Comparisons
  | [] => []
  | [_] => []
  | a :: b :: rest => (b, a) :: adjacentCalls (b :: rest)

/-- A backend whose detail records carry other names than the references
that point to them. -/
def renamedBackend : Backend :=
  mockBackend (.ok [⟨"alpha", "pokemon/1"⟩, ⟨"beta", "pokemon/2"⟩])
    [("pokemon/1", .ok (record 1 "zeta" 10)), ("pokemon/2", .ok (record 2 "eta" 20))]

/-- A backend on which two detail fetches fail with different failures. -/
def twoFailures : Backend :=
  mockBackend (.ok [⟨"squirtle", "pokemon/7"⟩, ⟨"charmander", "pokemon/4"⟩])
    [("pokemon/7", .error ⟨"Request failed with status code 500"⟩),
     ("pokemon/4", .error ⟨"timeout of 1000ms exceeded"⟩)]

/-- A listing in which two references share a name. -/
def twins : List SummaryRef :=
  [⟨"pidgey", "pokemon/16"⟩, ⟨"abra", "pokemon/63"⟩, ⟨"pidgey", "pokemon/10016"⟩]

/-! ## `Promise.all` -/

theorem AllInv.init {ε α : Type} (outcomes : List (Except ε α)) :
    AllInv outcomes [] (AllState.init ε α outcomes.length) := by
  refine ⟨by simp [AllState.init], ?_, by simp, ?_, ?_⟩
  · intro i v h
    simp [AllState.init, List.getElem?_replicate] at h
  · simp [AllState.init, List.countP_eq_zero]
  · simp [AllState.init, firstRejection]

/-- A slot that is still empty forces the counter to be positive. -/
theorem AllInv.remaining_pos {ε α : Type} {outcomes : List (Except ε α)} {S : List Nat}
    {st : AllState ε α} (h : AllInv outcomes S st) {i : Nat} (hi : st.values[i]? = some none) :
    0 < st.remaining := by
  have hlt : i < st.values.length := by
    by_contra hc
    simp [List.getElem?_eq_none (Nat.le_of_not_lt hc)] at hi
  have hcnt : st.values.countP Option.isSome < st.values.length := by
    refine lt_of_le_of_ne (List.countP_le_length _) ?_
    intro heq
    have hall := List.countP_eq_length.mp heq
    have hmem : (none : Option α) ∈ st.values := List.getElem?_mem hi
    simpa using hall _ hmem
  have := h.count
  have := h.len
  omega

theorem AllInv.settle {ε α : Type} {outcomes : List (Except ε α)} {S : List Nat}
    {st : AllState ε α} (h : AllInv outcomes S st) (i : Nat) :
    AllInv outcomes (S ++ [i]) (AllState.settle outcomes st i) := by
  have hfr : firstRejection outcomes (S ++ [i])
      = (firstRejection outcomes S).or (rejectionAt outcomes i) := by
    simp [firstRejection, List.findSome?_append, List.findSome?_cons]
    cases rejectionAt outcomes i <;> rfl
  unfold AllState.settle
  split
  · -- no promise at position `i`
    rename_i hnone
    refine ⟨h.len, h.sound, ?_, h.count, ?_⟩
    · intro j hj v hv
      rcases List.mem_append.mp hj with hj | hj
      · exact h.complete j hj v hv
      · simp at hj; subst hj; simp [hnone] at hv
    · rw [hfr, h.res]; simp [rejectionAt, hnone]
  · -- rejection
    rename_i e herr
    have hrej : rejectionAt outcomes i = some e := by simp [rejectionAt, herr]
    have hcompl : ∀ j ∈ S ++ [i], ∀ v : α, outcomes[j]? = some (Except.ok v) →
        st.values[j]? = some (some v) := by
      intro j hj v hv
      rcases List.mem_append.mp hj with hj | hj
      · exact h.complete j hj v hv
      · simp at hj; subst hj; simp [herr] at hv
    split
    · rename_i hres
      refine ⟨h.len, h.sound, hcompl, h.count, ?_⟩
      have := h.res
      rw [hres] at this
      cases hS : firstRejection outcomes S with
      | some e' => simp [hS] at this
      | none => simp [hfr, hS, hrej]
    · rename_i r hres
      refine ⟨h.len, h.sound, hcompl, h.count, ?_⟩
      have hr := h.res
      cases hS : firstRejection outcomes S with
      | some e' => rw [hfr, hS]; simpa [hS] using hr
      | none =>
        exfalso
        rw [hS, hres] at hr
        by_cases h0 : st.remaining = 0
        · have hlt : i < st.values.length := by
            rw [h.len]
            by_contra hc
            simp [List.getElem?_eq_none (Nat.le_of_not_lt hc)] at herr
          cases hv : st.values[i]? with
          | none => simp [List.getElem?_eq_none_iff] at hv; omega
          | some o =>
            cases o with
            | none => have := h.remaining_pos hv; omega
            | some v => have := h.sound i v hv; simp [herr] at this
        · simp [h0] at hr
  · -- fulfilment
    rename_i v hok
    have hrej : rejectionAt outcomes i = none := by simp [rejectionAt, hok]
    have hlt : i < st.values.length := by
      rw [h.len]
      by_contra hc
      simp [List.getElem?_eq_none (Nat.le_of_not_lt hc)] at hok
    split
    · rename_i w hw
      refine ⟨h.len, h.sound, ?_, h.count, ?_⟩
      · intro j hj v' hv'
        rcases List.mem_append.mp hj with hj | hj
        · exact h.complete j hj v' hv'
        · simp at hj; subst hj
          have := h.sound j w hw
          rw [hv'] at this
          simp at this; subst this; exact hw
      · rw [hfr, h.res]; simp [hrej]
    · rename_i hne
      have hslot : st.values[i]? = some none := by
        cases hv : st.values[i]? with
        | none => simp [List.getElem?_eq_none_iff] at hv; omega
        | some o =>
          cases o with
          | none => rfl
          | some w => exact absurd hv (hne w)
      have hpos := h.remaining_pos hslot
      have hgi : st.values[i] = none := by
        have := List.getElem?_eq_getElem hlt
        rw [hslot] at this; simpa using this.symm
      have hsound : ∀ (j : Nat) (v' : α), (st.values.set i (some v))[j]? = some (some v') →
          outcomes[j]? = some (Except.ok v') := by
        intro j v' hj
        by_cases hji : i = j
        · subst hji
          simp [List.getElem?_set_self, hlt] at hj
          subst hj; exact hok
        · rw [List.getElem?_set_ne hji] at hj
          exact h.sound j v' hj
      have hcompl : ∀ j ∈ S ++ [i], ∀ v' : α, outcomes[j]? = some (Except.ok v') →
          (st.values.set i (some v))[j]? = some (some v') := by
        intro j hj v' hv'
        by_cases hji : i = j
        · subst hji
          rw [hok] at hv'
          simp at hv'; subst hv'
          simp [List.getElem?_set_self, hlt]
        · rw [List.getElem?_set_ne hji]
          rcases List.mem_append.mp hj with hj | hj
          · exact h.complete j hj v' hv'
          · simp at hj; exact absurd hj.symm hji
      have hcount : st.remaining - 1 + (st.values.set i (some v)).countP Option.isSome
          = outcomes.length := by
        rw [List.countP_set _ _ _ _ hlt, hgi]
        have := h.count
        simp
        omega
      have hr := h.res
      dsimp only
      by_cases hz : st.remaining - 1 = 0
      · rw [if_pos hz]
        split
        · rename_i hres
          refine ⟨by simpa using h.len, hsound, hcompl, hcount, ?_⟩
          rw [hres] at hr
          cases hS : firstRejection outcomes S with
          | some e' => simp [hS] at hr
          | none => simp [hfr, hS, hrej, hz]
        · rename_i r hres
          refine ⟨by simpa using h.len, hsound, hcompl, hcount, ?_⟩
          rw [hres] at hr
          cases hS : firstRejection outcomes S with
          | some e' => simpa [hfr, hS] using hr
          | none =>
            exfalso
            rw [hS] at hr
            have : st.remaining ≠ 0 := by omega
            simp [this] at hr
      · rw [if_neg hz]
        refine ⟨by simpa using h.len, hsound, hcompl, hcount, ?_⟩
        cases hS : firstRejection outcomes S with
        | some e' => simpa [hfr, hS] using hr
        | none =>
          rw [hS] at hr
          have : st.remaining ≠ 0 := by omega
          simp [this] at hr
          simp [hfr, hS, hrej, hz, hr]

theorem AllInv.fold {ε α : Type} (outcomes : List (Except ε α)) (order : List Nat) :
    AllInv outcomes order
      (order.foldl (AllState.settle outcomes) (AllState.init ε α outcomes.length)) := by
  induction order using List.reverseRecOn with
  | nil => exact AllInv.init outcomes
  | append_singleton l i ih =>
    rw [List.foldl_append]
    exact ih.settle i

/-- The aggregate promise rejects with the first rejection in settlement order. -/
theorem promiseAll_rejects {ε α : Type} (outcomes : List (Except ε α)) (order : List Nat)
    (e : ε) (h : firstRejection outcomes order = some e) :
    promiseAll outcomes order = some (Except.error e) := by
  have hres := (AllInv.fold outcomes order).res
  rw [h] at hres
  exact hres

/-- A rejection that settles makes `firstRejection` defined. -/
theorem firstRejection_isSome {ε α : Type} (outcomes : List (Except ε α)) (order : List Nat)
    (j : Nat) (e : ε) (hj : j ∈ order) (he : outcomes[j]? = some (Except.error e)) :
    ∃ e', firstRejection outcomes order = some e' := by
  cases hfr : firstRejection outcomes order with
  | some e' => exact ⟨e', rfl⟩
  | none =>
    exfalso
    have := List.findSome?_eq_none_iff.mp hfr j hj
    simp [rejectionAt, he] at this

/-- The first rejection is the rejection of one of the promises. -/
theorem firstRejection_mem {ε α : Type} (outcomes : List (Except ε α)) (order : List Nat)
    (e : ε) (h : firstRejection outcomes order = some e) :
    Except.error e ∈ outcomes := by
  obtain ⟨j, -, hj⟩ := List.exists_of_findSome?_eq_some h
  unfold rejectionAt at hj
  split at hj
  · rename_i e' he'
    simp at hj; subst hj
    exact List.getElem?_mem he'
  · simp at hj

theorem map_ok_filterMap_toOption {ε α : Type} (outcomes : List (Except ε α))
    (hall : ∀ o ∈ outcomes, ∃ v, o = Except.ok v) :
    (outcomes.filterMap Except.toOption).map Except.ok = outcomes := by
  induction outcomes with
  | nil => rfl
  | cons o os ih =>
    obtain ⟨v, rfl⟩ := hall _ (List.mem_cons_self _ _)
    have := ih (fun o ho => hall o (List.mem_cons_of_mem _ ho))
    simp [Except.toOption, this]

/-- When every promise fulfils and every one settles, the aggregate promise
fulfils with the values in input order. -/
theorem promiseAll_fulfils {ε α : Type} (outcomes : List (Except ε α)) (order : List Nat)
    (hall : ∀ o ∈ outcomes, ∃ v, o = Except.ok v)
    (hcov : AllSettle outcomes.length order) :
    promiseAll outcomes order = some (Except.ok (outcomes.filterMap Except.toOption)) := by
  have inv := AllInv.fold outcomes order
  have hnone : firstRejection outcomes order = none := by
    apply List.findSome?_eq_none_iff.mpr
    intro j _
    unfold rejectionAt
    split
    · rename_i e he
      obtain ⟨v, hv⟩ := hall _ (List.getElem?_mem he)
      cases hv
    · rfl
  have hvals : (order.foldl (AllState.settle outcomes) (AllState.init ε α outcomes.length)).values
      = outcomes.map (fun o => Except.toOption o) := by
    apply List.ext_getElem?
    intro i
    by_cases hi : i < outcomes.length
    · obtain ⟨v, hv⟩ := hall _ (List.getElem_mem hi)
      have hget : outcomes[i]? = some (Except.ok v) := by
        rw [List.getElem?_eq_getElem hi, hv]
      rw [inv.complete i (hcov i hi) v hget]
      simp [hget, Except.toOption]
    · have h1 : outcomes.length ≤ i := Nat.le_of_not_lt hi
      rw [List.getElem?_eq_none (by rw [inv.len]; exact h1)]
      simp [List.getElem?_eq_none h1]
  have hsome : ∀ o ∈ outcomes.map (fun o => Except.toOption o), Option.isSome o = true := by
    intro o ho
    obtain ⟨x, hx, rfl⟩ := List.mem_map.mp ho
    obtain ⟨v, rfl⟩ := hall x hx
    rfl
  have hrem : (order.foldl (AllState.settle outcomes)
      (AllState.init ε α outcomes.length)).remaining = 0 := by
    have hc := inv.count
    rw [hvals, List.countP_eq_length.mpr hsome] at hc
    simpa using hc
  have hres := inv.res
  rw [hnone] at hres
  simp only [hrem, if_true] at hres
  unfold promiseAll
  rw [hres, hvals]
  simp [List.filterMap_map]

/-- A fulfilled aggregate promise carries one value per input promise, each
the value of the promise at the same position. -/
theorem promiseAll_ok_inv {ε α : Type} (outcomes : List (Except ε α)) (order : List Nat)
    (vs : List α) (h : promiseAll outcomes order = some (Except.ok vs)) :
    vs.map Except.ok = outcomes := by
  have inv := AllInv.fold outcomes order
  have hres := inv.res
  unfold promiseAll at h
  rw [h] at hres
  cases hfr : firstRejection outcomes order with
  | some e => simp [hfr] at hres
  | none =>
    rw [hfr] at hres
    by_cases h0 : (order.foldl (AllState.settle outcomes)
        (AllState.init ε α outcomes.length)).remaining = 0
    · simp only [h0, if_true] at hres
      have hvs : vs = List.filterMap id (order.foldl (AllState.settle outcomes)
          (AllState.init ε α outcomes.length)).values := by
        simpa using hres
      have hc := inv.count
      rw [h0] at hc
      have hfull := List.countP_eq_length.mp (by rw [inv.len]; simpa using hc)
      have hvals : (order.foldl (AllState.settle outcomes)
          (AllState.init ε α outcomes.length)).values = outcomes.map (fun o => Except.toOption o) := by
        apply List.ext_getElem?
        intro i
        by_cases hi : i < outcomes.length
        · have hi' : i < (order.foldl (AllState.settle outcomes)
              (AllState.init ε α outcomes.length)).values.length := by rw [inv.len]; exact hi
          have hg := List.getElem?_eq_getElem hi'
          have hs := hfull _ (List.getElem_mem hi')
          obtain ⟨v, hv⟩ := Option.isSome_iff_exists.mp hs
          rw [hv] at hg
          have := inv.sound i v hg
          rw [hg]
          simp [this, Except.toOption]
        · have h1 : outcomes.length ≤ i := Nat.le_of_not_lt hi
          rw [List.getElem?_eq_none (by rw [inv.len]; exact h1)]
          simp [List.getElem?_eq_none h1]
      have hallok : ∀ o ∈ outcomes, ∃ v, o = Except.ok v := by
        intro o ho
        obtain ⟨i, hi, rfl⟩ := List.getElem_of_mem ho
        have hi' : i < (order.foldl (AllState.settle outcomes)
            (AllState.init ε α outcomes.length)).values.length := by rw [inv.len]; exact hi
        have hs := hfull _ (List.getElem_mem hi')
        obtain ⟨v, hv⟩ := Option.isSome_iff_exists.mp hs
        have := inv.sound i v (by rw [List.getElem?_eq_getElem hi', hv])
        rw [List.getElem?_eq_getElem hi] at this
        exact ⟨v, by simpa using this⟩
      rw [hvs, hvals, List.filterMap_map]
      exact map_ok_filterMap_toOption outcomes hallok
    · simp [h0] at hres

/-! ## Copy and sort -/

theorem copyAndSort_results (cmp : String → String → Int) (results : List SummaryRef) :
    copyAndSort cmp [results] resultsAddr
      = ([results, Array_sort (byName cmp) results], 1) := by
  simp [copyAndSort, Heap.alloc, Heap.read, Heap.sortInPlace, resultsAddr]

theorem sortedArray_eq (cmp : String → String → Int) (results : List SummaryRef) :
    sortedArray cmp results = Array_sort (byName cmp) results := by
  simp [sortedArray, copyAndSort_results, Heap.read]

theorem sortedArray_perm (cmp : String → String → Int) (results : List SummaryRef) :
    (sortedArray cmp results).Perm results := by
  rw [sortedArray_eq]
  exact List.perm_insertionSort _ _

theorem sortedArray_length (cmp : String → String → Int) (results : List SummaryRef) :
    (sortedArray cmp results).length = results.length :=
  (sortedArray_perm cmp results).length_eq

theorem sortedArray_pairwise (cmp : String → String → Int) (hc : Consistent cmp)
    (results : List SummaryRef) :
    (sortedArray cmp results).Pairwise (fun a b => cmp a.name b.name ≤ 0) := by
  rw [sortedArray_eq]
  haveI : IsTotal SummaryRef (fun a b => byName cmp a b ≤ 0) := ⟨fun a b => hc.total a.name b.name⟩
  haveI : IsTrans SummaryRef (fun a b => byName cmp a b ≤ 0) :=
    ⟨fun a b c => hc.trans a.name b.name c.name⟩
  exact List.sorted_insertionSort (fun a b => byName cmp a b ≤ 0) results

theorem sortedArray_sublist (cmp : String → String → Int) (results c : List SummaryRef)
    (hsub : c.Sublist results) (hle : c.Pairwise (fun a b => cmp a.name b.name ≤ 0)) :
    c.Sublist (sortedArray cmp results) := by
  rw [sortedArray_eq]
  exact List.sublist_insertionSort hle hsub

/-! ## The ordinal collation is consistent -/

theorem codePointCompare_total : ∀ a b : List Char,
    codePointCompare a b ≤ 0 ∨ codePointCompare b a ≤ 0
  | [], [] => by simp [codePointCompare]
  | [], _ :: _ => by simp [codePointCompare]
  | _ :: _, [] => by simp [codePointCompare]
  | a :: as, b :: bs => by
    have ih := codePointCompare_total as bs
    simp only [codePointCompare]
    split_ifs <;> omega

theorem codePointCompare_trans : ∀ a b c : List Char,
    codePointCompare a b ≤ 0 → codePointCompare b c ≤ 0 → codePointCompare a c ≤ 0
  | [], _, [] => by simp [codePointCompare]
  | [], _, _ :: _ => by simp [codePointCompare]
  | _ :: _, [], _ => by simp [codePointCompare]
  | _ :: _, _ :: _, [] => by simp [codePointCompare]
  | a :: as, b :: bs, c :: cs => by
    have ih := codePointCompare_trans as bs cs
    simp only [codePointCompare]
    split_ifs <;> intro h1 h2 <;> omega

theorem ordinalCompare_consistent : Consistent ordinalCompare :=
  ⟨fun a b => codePointCompare_total a.data b.data,
   fun a b c => codePointCompare_trans a.data b.data c.data⟩

/-! ## Shape of a load cycle -/

theorem fetch_listing_rejected (cmp : String → String → Int) (calls : Comparisons)
    (b : Backend) (order : List Nat)
    (s : State) (e : Err) (h : b.listing POKEMON_API_URL = Except.error e) :
    fetchPokemonData cmp calls b order s = ⟨onCatch s e, [POKEMON_API_URL], []⟩ := by
  simp [fetchPokemonData, h]

theorem fetch_results_unreadable (cmp : String → String → Int) (calls : Comparisons)
    (b : Backend) (order : List Nat)
    (s : State) (response : Response) (e : Err)
    (h : b.listing POKEMON_API_URL = Except.ok response)
    (hr : response.results = Except.error (Unusable.unreadable e)) :
    fetchPokemonData cmp calls b order s = ⟨onCatch s e, [POKEMON_API_URL], []⟩ := by
  simp [fetchPokemonData, h, hr]

theorem fetch_illTyped (cmp : String → String → Int) (calls : Comparisons)
    (b : Backend) (order : List Nat)
    (s : State) (response : Response) (entries : List Entry)
    (h : b.listing POKEMON_API_URL = Except.ok response)
    (hr : response.results = Except.error (Unusable.illTyped entries)) :
    fetchPokemonData cmp calls b order s =
      match sortEntries cmp calls entries with
      | Except.error err =>
        ⟨onCatch s err, [POKEMON_API_URL], [entries.map Entry.toRef, entries.map Entry.toRef]⟩
      | Except.ok sorted =>
        fanOut b order s (sorted.map Entry.toRef)
          [entries.map Entry.toRef, sorted.map Entry.toRef] := by
  simp only [fetchPokemonData, h, hr]

/-- The comparator throwing during the sort ends the cycle in the `catch`
block before any detail request. -/
theorem fetch_sort_throws (cmp : String → String → Int) (calls : Comparisons)
    (b : Backend) (order : List Nat)
    (s : State) (response : Response) (entries : List Entry) (e : Err)
    (h : b.listing POKEMON_API_URL = Except.ok response)
    (hr : response.results = Except.error (Unusable.illTyped entries))
    (ht : firstThrow cmp (calls entries) = some e) :
    fetchPokemonData cmp calls b order s =
      ⟨onCatch s e, [POKEMON_API_URL], [entries.map Entry.toRef, entries.map Entry.toRef]⟩ := by
  rw [fetch_illTyped cmp calls b order s response entries h hr]
  simp [sortEntries, ht]

/-- A call of the comparator whose receiver has a `name` that is not a string
makes the sort throw. -/
theorem firstThrow_isSome (cmp : String → String → Int) (made : List (Entry × Entry))
    (a b : Entry) (text : String) (thrown : Err)
    (hcall : (a, b) ∈ made) (hname : a.name = NameValue.other text thrown) :
    ∃ e, firstThrow cmp made = some e := by
  cases hft : firstThrow cmp made with
  | some e => exact ⟨e, rfl⟩
  | none =>
    exfalso
    have := List.findSome?_eq_none_iff.mp hft (a, b) hcall
    simp [byNameEntry, hname] at this

/-- When every receiver handed to the comparator has a string for `name`, no
call throws. -/
theorem firstThrow_none (cmp : String → String → Int) (made : List (Entry × Entry))
    (hstr : ∀ p ∈ made, ∃ s, p.1.name = NameValue.str s) :
    firstThrow cmp made = none := by
  apply List.findSome?_eq_none_iff.mpr
  intro p hp
  obtain ⟨s, hs⟩ := hstr p hp
  simp [byNameEntry, hs]

theorem fanOut_eq (b : Backend) (order : List Nat) (s : State) (sorted : List SummaryRef)
    (heap : Heap) :
    fanOut b order s sorted heap =
      ⟨match promiseAll (sorted.map (fetchDetail b)) order with
        | none => s
        | some (Except.error err) => onCatch s err
        | some (Except.ok pokemonDetails) => onLoaded s pokemonDetails,
       POKEMON_API_URL :: sorted.map (fun pokemon => pokemon.url),
       heap⟩ := by
  simp only [fanOut]
  cases promiseAll (sorted.map (fetchDetail b)) order with
  | none => rfl
  | some r => cases r <;> rfl

theorem fetch_listing_ok (cmp : String → String → Int) (calls : Comparisons)
    (b : Backend) (order : List Nat)
    (s : State) (response : Response) (results : List SummaryRef)
    (h : b.listing POKEMON_API_URL = Except.ok response)
    (hr : response.results = Except.ok results) :
    fetchPokemonData cmp calls b order s =
      ⟨match promiseAll ((sortedArray cmp results).map (fetchDetail b)) order with
        | none => s
        | some (Except.error err) => onCatch s err
        | some (Except.ok pokemonDetails) => onLoaded s pokemonDetails,
       POKEMON_API_URL :: (sortedArray cmp results).map (fun pokemon => pokemon.url),
       [results, sortedArray cmp results]⟩ := by
  simp only [fetchPokemonData, h, hr, copyAndSort_results, fanOut_eq, sortedArray_eq]
  simp [Heap.read]

/-- Every detail fetch of the sorted references succeeds when every detail
fetch of the listed references does. -/
theorem outcomes_all_ok (cmp : String → String → Int) (b : Backend)
    (results : List SummaryRef)
    (hd : ∀ r ∈ results, ∃ d, b.detail r.url = Except.ok d) :
    ∀ o ∈ (sortedArray cmp results).map (fetchDetail b), ∃ v, o = Except.ok v := by
  intro o ho
  obtain ⟨r, hr, rfl⟩ := List.mem_map.mp ho
  obtain ⟨d, hd'⟩ := hd r ((sortedArray_perm cmp results).mem_iff.mp hr)
  exact ⟨d.data, by simp [fetchDetail, hd']⟩

/-- The final state of a load cycle in which the listing and every detail
fetch succeed and every detail fetch settles. -/
theorem fetch_loaded (cmp : String → String → Int) (calls : Comparisons)
    (b : Backend) (order : List Nat)
    (s : State) (response : Response) (results : List SummaryRef)
    (h : b.listing POKEMON_API_URL = Except.ok response)
    (hr : response.results = Except.ok results)
    (hd : ∀ r ∈ results, ∃ d, b.detail r.url = Except.ok d)
    (hcov : AllSettle results.length order) :
    (fetchPokemonData cmp calls b order s).state
      = onLoaded s (((sortedArray cmp results).map (fetchDetail b)).filterMap Except.toOption) := by
  rw [fetch_listing_ok cmp calls b order s response results h hr]
  have hcov' : AllSettle ((sortedArray cmp results).map (fetchDetail b)).length order := by
    simpa [sortedArray_length] using hcov
  rw [promiseAll_fulfils _ order (outcomes_all_ok cmp b results hd) hcov']

/-- The final state of a load cycle in which the listing succeeds and a
rejected detail fetch settles. -/
theorem fetch_detail_failed (cmp : String → String → Int) (calls : Comparisons)
    (b : Backend) (order : List Nat)
    (s : State) (response : Response) (results : List SummaryRef) (e : Err)
    (h : b.listing POKEMON_API_URL = Except.ok response)
    (hr : response.results = Except.ok results)
    (hfr : firstRejection ((sortedArray cmp results).map (fetchDetail b)) order = some e) :
    (fetchPokemonData cmp calls b order s).state = onCatch s e := by
  rw [fetch_listing_ok cmp calls b order s response results h hr]
  rw [promiseAll_rejects _ order e hfr]

/-! ## Views -/

theorem byClassList_map_Pokemon (l : List DetailRecord) :
    Node.byClassList "pokemon-card" (l.map Pokemon) = l.map Pokemon := by
  induction l with
  | nil => rfl
  | cons d ds ih =>
    simp [Node.byClassList, Node.byClass, Pokemon, List.lookup] at ih ⊢
    exact ih

theorem cards_App_loaded (s : State) (hl : s.loading = false) (he : s.error = none) :
    cards (App s) = s.pokemonList.map Pokemon := by
  simp [cards, App, hl, he, Node.byClass, Node.byClassList, List.lookup,
    byClassList_map_Pokemon]

theorem cards_App_error (s : State) (e : Err) (hl : s.loading = false) (he : s.error = some e) :
    cards (App s) = [] := by
  simp [cards, App, hl, he, Node.byClass, Node.byClassList, List.lookup]

theorem cards_App_loading (s : State) (hl : s.loading = true) : cards (App s) = [] := by
  simp [cards, App, hl, Node.byClass, Node.byClassList, List.lookup]

/-! ## Claims -/

/-- C1. When the listing fetch and every detail fetch succeed (and every
detail fetch settles), the load cycle started from the initial state ends
loaded: `loading = false`, `error = null`, and `pokemonList` has exactly as
many records as the listing has references, each shown as one card. With an
empty listing this is the loaded state with zero cards. -/
theorem load_success_length (cmp : String → String → Int) (calls : Comparisons)
    (b : Backend) (order : List Nat)
    (response : Response) (results : List SummaryRef)
    (hl : b.listing POKEMON_API_URL = Except.ok response)
    (hr : response.results = Except.ok results)
    (hd : ∀ r ∈ results, ∃ d, b.detail r.url = Except.ok d)
    (hcov : AllSettle results.length order) :
    (fetchPokemonData cmp calls b order State.initial).state.loading = false
      ∧ (fetchPokemonData cmp calls b order State.initial).state.error = none
      ∧ (fetchPokemonData cmp calls b order State.initial).state.pokemonList.length = results.length
      ∧ (cards (App (fetchPokemonData cmp calls b order State.initial).state)).length = results.length
      ∧ (results = [] →
          (fetchPokemonData cmp calls b order State.initial).state = ⟨[], false, none⟩) := by
  have hst := fetch_loaded cmp calls b order State.initial response results hl hr hd hcov
  have hlen : (((sortedArray cmp results).map (fetchDetail b)).filterMap Except.toOption).length
      = results.length := by
    have := congrArg List.length
      (map_ok_filterMap_toOption _ (outcomes_all_ok cmp b results hd))
    simpa [sortedArray_length] using this
  have hcards := cards_App_loaded (fetchPokemonData cmp calls b order State.initial).state
    (by rw [hst]; rfl) (by rw [hst]; rfl)
  refine ⟨by rw [hst]; rfl, by rw [hst]; rfl, by rw [hst]; exact hlen, ?_, ?_⟩
  · rw [hcards, List.length_map, hst]; exact hlen
  · intro hnil
    subst hnil
    rw [hst]
    have : sortedArray cmp [] = [] := List.eq_nil_of_length_eq_zero (sortedArray_length cmp [])
    simp [this, onLoaded, State.initial]

theorem scenarioA_details_ok :
    ∀ r ∈ [(⟨"bulbasaur", "pokemon/1"⟩ : SummaryRef), ⟨"pikachu", "pokemon/25"⟩],
      ∃ d, scenarioA.detail r.url = Except.ok d := by
  intro r hr
  simp only [List.mem_cons, List.mem_singleton, List.not_mem_nil, or_false] at hr
  rcases hr with rfl | rfl
  · exact ⟨⟨record 1 "bulbasaur" 64⟩, rfl⟩
  · exact ⟨⟨record 25 "pikachu" 112⟩, rfl⟩

/-- Witness of C1: scenario A ends loaded with two records and two cards,
scenario C (empty listing) ends loaded with none. -/
theorem load_success_length_witness :
    ((fetchPokemonData ordinalCompare adjacentCalls scenarioA [1, 0] State.initial).state.loading = false
      ∧ (fetchPokemonData ordinalCompare adjacentCalls scenarioA [1, 0] State.initial).state.error = none
      ∧ (fetchPokemonData ordinalCompare adjacentCalls scenarioA [1, 0] State.initial).state.pokemonList.length = 2
      ∧ (cards (App (fetchPokemonData ordinalCompare adjacentCalls scenarioA [1, 0] State.initial).state)).length = 2)
    ∧ (fetchPokemonData ordinalCompare adjacentCalls scenarioC [] State.initial).state = ⟨[], false, none⟩ := by
  have hA := load_success_length ordinalCompare adjacentCalls scenarioA [1, 0] ⟨.ok _⟩ _ rfl rfl
    scenarioA_details_ok (by decide)
  have hC := load_success_length ordinalCompare adjacentCalls scenarioC [] ⟨.ok []⟩ [] rfl rfl
    (by simp) (by decide)
  exact ⟨⟨hA.1, hA.2.1, hA.2.2.1, hA.2.2.2.1⟩, hC.2.2.2.2 rfl⟩

/-- C3. When the listing succeeds and a detail fetch that is rejected settles
(position `j` of the array handed to `Promise.all`, whatever the other
fetches do), the load cycle ends in the error state: `loading = false`, the
stored error is the first rejection in settlement order, which is the failure
of one of the detail fetches, `pokemonList` keeps the value it had (the
initial empty array), and the view shows no card. -/
theorem detail_failure_error_state (cmp : String → String → Int) (calls : Comparisons) (b : Backend)
    (order : List Nat) (s : State) (response : Response) (results : List SummaryRef)
    (j : Nat) (r : SummaryRef) (e : Err)
    (hl : b.listing POKEMON_API_URL = Except.ok response)
    (hr : response.results = Except.ok results)
    (hj : j ∈ order)
    (hjr : (sortedArray cmp results)[j]? = some r)
    (hf : b.detail r.url = Except.error e) :
    ∃ err, firstRejection ((sortedArray cmp results).map (fetchDetail b)) order = some err
      ∧ (∃ r' ∈ results, b.detail r'.url = Except.error err)
      ∧ (fetchPokemonData cmp calls b order s).state = ⟨s.pokemonList, false, some err⟩
      ∧ (fetchPokemonData cmp calls b order State.initial).state = ⟨[], false, some err⟩
      ∧ cards (App (fetchPokemonData cmp calls b order State.initial).state) = [] := by
  have hout : ((sortedArray cmp results).map (fetchDetail b))[j]? = some (Except.error e) := by
    simp [List.getElem?_map, hjr, fetchDetail, hf]
  obtain ⟨err, herr⟩ := firstRejection_isSome _ order j e hj hout
  have hmem := firstRejection_mem _ order err herr
  obtain ⟨r', hr', hfd⟩ := List.mem_map.mp hmem
  have hr'' : r' ∈ results := (sortedArray_perm cmp results).mem_iff.mp hr'
  have hdet : b.detail r'.url = Except.error err := by
    unfold fetchDetail at hfd
    split at hfd
    · rename_i e' he'
      rw [he']
      simpa using hfd
    · cases hfd
  have h1 := fetch_detail_failed cmp calls b order s response results err hl hr herr
  have h2 := fetch_detail_failed cmp calls b order State.initial response results err hl hr herr
  refine ⟨err, herr, ⟨r', hr'', hdet⟩, by rw [h1]; rfl, by rw [h2]; rfl, ?_⟩
  exact cards_App_error _ err (by rw [h2]; rfl) (by rw [h2]; rfl)

/-- Witness of C3: scenario B, with the squirtle fetch settling before the
charmander fetch fails. -/
theorem detail_failure_error_state_witness :
    (fetchPokemonData ordinalCompare adjacentCalls scenarioB [1, 0] State.initial).state
        = ⟨[], false, some ⟨"timeout of 1000ms exceeded"⟩⟩
      ∧ cards (App (fetchPokemonData ordinalCompare adjacentCalls scenarioB [1, 0] State.initial).state) = [] := by
  obtain ⟨err, h1, -, -, h4, h5⟩ := detail_failure_error_state ordinalCompare adjacentCalls scenarioB [1, 0]
    State.initial ⟨.ok _⟩ _ 0 ⟨"charmander", "pokemon/4"⟩ ⟨"timeout of 1000ms exceeded"⟩
    rfl rfl (by decide) (by decide) rfl
  have h0 : firstRejection ((sortedArray ordinalCompare
      [⟨"squirtle", "pokemon/7"⟩, ⟨"charmander", "pokemon/4"⟩]).map (fetchDetail scenarioB)) [1, 0]
      = some ⟨"timeout of 1000ms exceeded"⟩ := by decide
  rw [h0] at h1
  cases h1
  exact ⟨h4, h5⟩

/-- C4. When the listing fetch fails, by a rejected request, by a response
whose `results` cannot be read or copied (line 26 throws), or by a response
whose `results` cannot be sorted (a call of the comparator of line 34 throws),
the load cycle ends in the error state with `loading = false` and that failure
stored, `pokemonList` keeps its value (the initial empty array), and the
listing request is the only request issued. -/
theorem listing_failure_error_state (cmp : String → String → Int) (calls : Comparisons)
    (b : Backend) (order : List Nat) (s : State) (e : Err)
    (h : b.listing POKEMON_API_URL = Except.error e
      ∨ (∃ response, b.listing POKEMON_API_URL = Except.ok response
          ∧ response.results = Except.error (Unusable.unreadable e))
      ∨ (∃ response entries, b.listing POKEMON_API_URL = Except.ok response
          ∧ response.results = Except.error (Unusable.illTyped entries)
          ∧ firstThrow cmp (calls entries) = some e)) :
    (fetchPokemonData cmp calls b order s).state = ⟨s.pokemonList, false, some e⟩
      ∧ (fetchPokemonData cmp calls b order State.initial).state = ⟨[], false, some e⟩
      ∧ (fetchPokemonData cmp calls b order s).requests = [POKEMON_API_URL]
      ∧ cards (App (fetchPokemonData cmp calls b order State.initial).state) = [] := by
  have key : ∀ s', (fetchPokemonData cmp calls b order s').state = onCatch s' e
      ∧ (fetchPokemonData cmp calls b order s').requests = [POKEMON_API_URL] := by
    intro s'
    rcases h with h | ⟨response, h, hr⟩ | ⟨response, entries, h, hr, ht⟩
    · rw [fetch_listing_rejected cmp calls b order s' e h]
      exact ⟨rfl, rfl⟩
    · rw [fetch_results_unreadable cmp calls b order s' response e h hr]
      exact ⟨rfl, rfl⟩
    · rw [fetch_sort_throws cmp calls b order s' response entries e h hr ht]
      exact ⟨rfl, rfl⟩
  refine ⟨by rw [(key s).1]; rfl, by rw [(key _).1]; rfl, (key s).2, ?_⟩
  exact cards_App_error _ e (by rw [(key _).1]; rfl) (by rw [(key _).1]; rfl)

/-- Witness of C4: a rejected listing request, a listing response whose
`results` is not iterable, and a listing of two entries without `name`, on
which the comparator throws. -/
theorem listing_failure_error_state_witness :
    ((fetchPokemonData ordinalCompare adjacentCalls offlineBackend [] State.initial).state
        = ⟨[], false, some ⟨"Network Error"⟩⟩
      ∧ (fetchPokemonData ordinalCompare adjacentCalls offlineBackend [] State.initial).requests
        = [POKEMON_API_URL])
    ∧ ((fetchPokemonData ordinalCompare adjacentCalls malformedBackend [] State.initial).state
        = ⟨[], false, some ⟨"response.data.results is not iterable"⟩⟩
      ∧ (fetchPokemonData ordinalCompare adjacentCalls malformedBackend [] State.initial).requests
        = [POKEMON_API_URL])
    ∧ ((fetchPokemonData ordinalCompare adjacentCalls namelessBackend [0, 1] State.initial).state
        = ⟨[], false,
            some ⟨"Cannot read properties of undefined (reading 'localeCompare')"⟩⟩
      ∧ (fetchPokemonData ordinalCompare adjacentCalls namelessBackend [0, 1] State.initial).requests
        = [POKEMON_API_URL]) := by
  have h1 := listing_failure_error_state ordinalCompare adjacentCalls offlineBackend []
    State.initial ⟨"Network Error"⟩ (Or.inl rfl)
  have h2 := listing_failure_error_state ordinalCompare adjacentCalls malformedBackend []
    State.initial ⟨"response.data.results is not iterable"⟩
    (Or.inr (Or.inl ⟨⟨.error (.unreadable _)⟩, rfl, rfl⟩))
  have h3 := listing_failure_error_state ordinalCompare adjacentCalls namelessBackend [0, 1]
    State.initial ⟨"Cannot read properties of undefined (reading 'localeCompare')"⟩
    (Or.inr (Or.inr ⟨⟨.error (.illTyped _)⟩, _, rfl, rfl, by decide⟩))
  exact ⟨⟨h1.2.1, h1.2.2.1⟩, ⟨h2.2.1, h2.2.2.1⟩, ⟨h3.2.1, h3.2.2.1⟩⟩

/-- A listing whose only entry has no `name` is sorted without a call of the
comparator: the cycle goes on to the detail request and ends loaded. -/
theorem lone_nameless_entry_is_fetched :
    (fetchPokemonData ordinalCompare adjacentCalls loneNamelessBackend [0] State.initial).state
        = ⟨[record 1 "bulbasaur" 64], false, none⟩
      ∧ (fetchPokemonData ordinalCompare adjacentCalls loneNamelessBackend [0] State.initial).requests
        = [POKEMON_API_URL, "pokemon/1"] := by
  decide

/-- C5. In a successful load cycle the stored collection is collected
positionally from the sorted references: `pokemonList` has the length of
`sortedArray`, `pokemonList[i]` is the data returned by the detail fetch of
`sortedArray[i].url`, the detail requests are issued in sorted order, and the
collection is the same for every order in which the detail fetches settle. -/
theorem details_collected_positionally (cmp : String → String → Int) (calls : Comparisons)
    (b : Backend)
    (order : List Nat) (response : Response) (results : List SummaryRef)
    (hl : b.listing POKEMON_API_URL = Except.ok response)
    (hr : response.results = Except.ok results)
    (hd : ∀ r ∈ results, ∃ d, b.detail r.url = Except.ok d)
    (hcov : AllSettle results.length order) :
    (fetchPokemonData cmp calls b order State.initial).state.pokemonList.length
        = (sortedArray cmp results).length
      ∧ (∀ (i : Nat) (r : SummaryRef), (sortedArray cmp results)[i]? = some r →
          ∃ detailResponse, b.detail r.url = Except.ok detailResponse
            ∧ (fetchPokemonData cmp calls b order State.initial).state.pokemonList[i]?
                = some detailResponse.data)
      ∧ (fetchPokemonData cmp calls b order State.initial).requests
          = POKEMON_API_URL :: (sortedArray cmp results).map (fun pokemon => pokemon.url)
      ∧ (∀ order', AllSettle results.length order' →
          (fetchPokemonData cmp calls b order' State.initial).state.pokemonList
            = (fetchPokemonData cmp calls b order State.initial).state.pokemonList) := by
  have hst := fetch_loaded cmp calls b order State.initial response results hl hr hd hcov
  have hmap := map_ok_filterMap_toOption _ (outcomes_all_ok cmp b results hd)
  refine ⟨?_, ?_, ?_, ?_⟩
  · have := congrArg List.length hmap
    rw [hst]
    simpa [onLoaded] using this
  · intro i r hi
    have hmem : r ∈ results :=
      (sortedArray_perm cmp results).mem_iff.mp (List.getElem?_mem hi)
    obtain ⟨d, hd'⟩ := hd r hmem
    refine ⟨d, hd', ?_⟩
    have hi' := congrArg (fun l => l[i]?) hmap
    simp only [List.getElem?_map, hi, Option.map_some'] at hi'
    rw [hst]
    show (((sortedArray cmp results).map (fetchDetail b)).filterMap Except.toOption)[i]?
      = some d.data
    cases hget : (((sortedArray cmp results).map (fetchDetail b)).filterMap
        Except.toOption)[i]? with
    | none => rw [hget] at hi'; simp at hi'
    | some v =>
      rw [hget] at hi'
      simp [fetchDetail, hd'] at hi'
      rw [hi']
  · rw [fetch_listing_ok cmp calls b order State.initial response results hl hr]
  · intro order' hcov'
    rw [hst, fetch_loaded cmp calls b order' State.initial response results hl hr hd hcov']

theorem scenarioA_reversed_details_ok :
    ∀ r ∈ [(⟨"pikachu", "pokemon/25"⟩ : SummaryRef), ⟨"bulbasaur", "pokemon/1"⟩],
      ∃ d, scenarioA_reversed.detail r.url = Except.ok d := by
  intro r hr
  simp only [List.mem_cons, List.mem_singleton, List.not_mem_nil, or_false] at hr
  rcases hr with rfl | rfl
  · exact ⟨⟨record 25 "pikachu" 112⟩, rfl⟩
  · exact ⟨⟨record 1 "bulbasaur" 64⟩, rfl⟩

/-- Witness of C5: pikachu listed before bulbasaur and settling first; the
collection is bulbasaur, pikachu, the order of the sorted requests. -/
theorem details_collected_positionally_witness :
    (fetchPokemonData ordinalCompare adjacentCalls scenarioA_reversed [1, 0] State.initial).state.pokemonList[0]?
        = some (record 1 "bulbasaur" 64)
      ∧ (fetchPokemonData ordinalCompare adjacentCalls scenarioA_reversed [1, 0] State.initial).requests
        = [POKEMON_API_URL, "pokemon/1", "pokemon/25"]
      ∧ (fetchPokemonData ordinalCompare adjacentCalls scenarioA_reversed [0, 1] State.initial).state.pokemonList
        = (fetchPokemonData ordinalCompare adjacentCalls scenarioA_reversed [1, 0] State.initial).state.pokemonList := by
  have h := details_collected_positionally ordinalCompare adjacentCalls scenarioA_reversed [1, 0] ⟨.ok _⟩ _
    rfl rfl scenarioA_reversed_details_ok (by decide)
  obtain ⟨d, hd, hget⟩ := h.2.1 0 ⟨"bulbasaur", "pokemon/1"⟩ (by decide)
  have hd' : scenarioA_reversed.detail "pokemon/1" = Except.ok ⟨record 1 "bulbasaur" 64⟩ := rfl
  rw [hd'] at hd
  cases hd
  exact ⟨hget, h.2.2.1, h.2.2.2 [0, 1] (by decide)⟩

/-- Counterexample to C2 as stated: on `renamedBackend` the load cycle
succeeds, yet the stored records `zeta`, `eta` are not ascending by their own
names, because the sort ran on the names of the references. -/
theorem rendered_sorted_by_name_counterexample :
    (fetchPokemonData ordinalCompare adjacentCalls renamedBackend [0, 1] State.initial).state
        = ⟨[record 1 "zeta" 10, record 2 "eta" 20], false, none⟩
      ∧ ¬ List.Chain' (fun x y : DetailRecord => ordinalCompare x.name y.name ≤ 0)
          (fetchPokemonData ordinalCompare adjacentCalls renamedBackend [0, 1] State.initial).state.pokemonList := by
  have hst : (fetchPokemonData ordinalCompare adjacentCalls renamedBackend [0, 1] State.initial).state
      = ⟨[record 1 "zeta" 10, record 2 "eta" 20], false, none⟩ := by decide
  refine ⟨hst, ?_⟩
  rw [hst]
  intro hch
  have hch' : List.Chain' (fun x y : DetailRecord => ordinalCompare x.name y.name ≤ 0)
      [record 1 "zeta" 10, record 2 "eta" 20] := hch
  have hrel := List.Chain'.rel_head hch'
  revert hrel
  decide

/-- C2, amended. When the comparator is consistent and every detail record
carries the name of the reference it was fetched for, the collection of a
successful load cycle is ascending by the records' names: every adjacent pair
`r_i`, `r_(i+1)` of `pokemonList` has `cmp r_i.name r_(i+1).name ≤ 0`; and the
cards are rendered in that order. -/
theorem rendered_sorted_by_name (cmp : String → String → Int) (calls : Comparisons)
    (hc : Consistent cmp)
    (b : Backend) (order : List Nat) (response : Response) (results : List SummaryRef)
    (hl : b.listing POKEMON_API_URL = Except.ok response)
    (hr : response.results = Except.ok results)
    (hd : ∀ r ∈ results, ∃ d, b.detail r.url = Except.ok d)
    (hcov : AllSettle results.length order)
    (hname : ∀ r ∈ results, ∀ d, b.detail r.url = Except.ok d → d.data.name = r.name) :
    List.Chain' (fun x y : DetailRecord => cmp x.name y.name ≤ 0)
        (fetchPokemonData cmp calls b order State.initial).state.pokemonList
      ∧ cards (App (fetchPokemonData cmp calls b order State.initial).state)
          = (fetchPokemonData cmp calls b order State.initial).state.pokemonList.map Pokemon := by
  have hst := fetch_loaded cmp calls b order State.initial response results hl hr hd hcov
  refine ⟨?_, cards_App_loaded _ (by rw [hst]; rfl) (by rw [hst]; rfl)⟩
  rw [hst]
  show List.Chain' _ (((sortedArray cmp results).map (fetchDetail b)).filterMap Except.toOption)
  apply List.Pairwise.chain'
  rw [List.filterMap_map, List.pairwise_filterMap]
  refine (sortedArray_pairwise cmp hc results).imp_of_mem ?_
  intro r1 r2 h1 h2 hle d1 hd1 d2 hd2
  have hm1 := (sortedArray_perm cmp results).mem_iff.mp h1
  have hm2 := (sortedArray_perm cmp results).mem_iff.mp h2
  obtain ⟨x1, hx1⟩ := hd r1 hm1
  obtain ⟨x2, hx2⟩ := hd r2 hm2
  simp [fetchDetail, hx1, Except.toOption] at hd1
  simp [fetchDetail, hx2, Except.toOption] at hd2
  subst hd1 hd2
  rw [hname r1 hm1 x1 hx1, hname r2 hm2 x2 hx2]
  exact hle

theorem scenarioA_names_agree :
    ∀ r ∈ [(⟨"bulbasaur", "pokemon/1"⟩ : SummaryRef), ⟨"pikachu", "pokemon/25"⟩],
      ∀ d, scenarioA.detail r.url = Except.ok d → d.data.name = r.name := by
  intro r hr d hd
  simp only [List.mem_cons, List.mem_singleton, List.not_mem_nil, or_false] at hr
  rcases hr with rfl | rfl
  · have h : scenarioA.detail "pokemon/1" = Except.ok ⟨record 1 "bulbasaur" 64⟩ := rfl
    rw [h] at hd; cases hd; rfl
  · have h : scenarioA.detail "pokemon/25" = Except.ok ⟨record 25 "pikachu" 112⟩ := rfl
    rw [h] at hd; cases hd; rfl

/-- Witness of C2, amended: scenario A renders bulbasaur, then pikachu. -/
theorem rendered_sorted_by_name_witness :
    List.Chain' (fun x y : DetailRecord => ordinalCompare x.name y.name ≤ 0)
        (fetchPokemonData ordinalCompare adjacentCalls scenarioA [1, 0] State.initial).state.pokemonList
      ∧ cards (App (fetchPokemonData ordinalCompare adjacentCalls scenarioA [1, 0] State.initial).state)
          = [Pokemon (record 1 "bulbasaur" 64), Pokemon (record 25 "pikachu" 112)] :=
  rendered_sorted_by_name ordinalCompare adjacentCalls ordinalCompare_consistent scenarioA [1, 0] ⟨.ok _⟩ _
    rfl rfl scenarioA_details_ok (by decide) scenarioA_names_agree

/-- C6. Under a consistent comparator, `sortedArray` is a permutation of the
listing's references, is ascending by name (`cmp a.name b.name ≤ 0` for every
`a` placed before `b`), and is stable: references of the listing whose names
compare equal keep their relative order. -/
theorem sortedArray_perm_sorted_stable (cmp : String → String → Int) (hc : Consistent cmp)
    (results : List SummaryRef) :
    (sortedArray cmp results).Perm results
      ∧ (sortedArray cmp results).Pairwise (fun a b => cmp a.name b.name ≤ 0)
      ∧ (∀ c : List SummaryRef, c.Sublist results →
          c.Pairwise (fun a b => cmp a.name b.name = 0) →
          c.Sublist (sortedArray cmp results)) := by
  refine ⟨sortedArray_perm cmp results, sortedArray_pairwise cmp hc results, ?_⟩
  intro c hsub heq
  exact sortedArray_sublist cmp results c hsub (heq.imp (fun h => le_of_eq h))

/-- Witness of C6: in `twins` the two references named pidgey keep their
order after abra has moved to the front. -/
theorem sortedArray_perm_sorted_stable_witness :
    (sortedArray ordinalCompare twins).Perm twins
      ∧ (sortedArray ordinalCompare twins).Pairwise
          (fun a b => ordinalCompare a.name b.name ≤ 0)
      ∧ [(⟨"pidgey", "pokemon/16"⟩ : SummaryRef), ⟨"pidgey", "pokemon/10016"⟩].Sublist
          (sortedArray ordinalCompare twins) := by
  have h := sortedArray_perm_sorted_stable ordinalCompare ordinalCompare_consistent twins
  exact ⟨h.1, h.2.1, h.2.2 _ (by decide) (by decide)⟩

/-- The state `fanOut` leaves is the starting state (still pending), the
outcome of the `catch` block, or the outcome of the success path. -/
theorem fanOut_state_cases (b : Backend) (order : List Nat) (s : State)
    (sorted : List SummaryRef) (heap : Heap) :
    (fanOut b order s sorted heap).state = s
      ∨ (∃ err, (fanOut b order s sorted heap).state = onCatch s err)
      ∨ (∃ ds, (fanOut b order s sorted heap).state = onLoaded s ds) := by
  rw [fanOut_eq]
  cases promiseAll (sorted.map (fetchDetail b)) order with
  | none => exact Or.inl rfl
  | some r =>
    cases r with
    | error e => exact Or.inr (Or.inl ⟨e, rfl⟩)
    | ok ds => exact Or.inr (Or.inr ⟨ds, rfl⟩)

/-- A listing request resolves or rejects. -/
theorem listing_cases (b : Backend) :
    (∃ e, b.listing POKEMON_API_URL = Except.error e)
      ∨ (∃ response, b.listing POKEMON_API_URL = Except.ok response) := by
  cases b.listing POKEMON_API_URL with
  | error e => exact Or.inl ⟨e, rfl⟩
  | ok response => exact Or.inr ⟨response, rfl⟩

/-- What a listing response holds. -/
theorem results_cases (response : Response) :
    (∃ e, response.results = Except.error (Unusable.unreadable e))
      ∨ (∃ entries, response.results = Except.error (Unusable.illTyped entries))
      ∨ (∃ results, response.results = Except.ok results) := by
  cases response.results with
  | error u =>
    cases u with
    | unreadable e => exact Or.inl ⟨e, rfl⟩
    | illTyped entries => exact Or.inr (Or.inl ⟨entries, rfl⟩)
  | ok results => exact Or.inr (Or.inr ⟨results, rfl⟩)

/-- The sort of ill-typed entries throws or returns. -/
theorem sortEntries_cases (cmp : String → String → Int) (calls : Comparisons)
    (entries : List Entry) :
    (∃ e, sortEntries cmp calls entries = Except.error e)
      ∨ (∃ sorted, sortEntries cmp calls entries = Except.ok sorted) := by
  cases sortEntries cmp calls entries with
  | error e => exact Or.inl ⟨e, rfl⟩
  | ok sorted => exact Or.inr ⟨sorted, rfl⟩

/-- The state a load cycle leaves is the starting state (still pending), the
outcome of the `catch` block, or the outcome of the success path. -/
theorem fetch_state_cases (cmp : String → String → Int) (calls : Comparisons) (b : Backend)
    (order : List Nat) (s : State) :
    (fetchPokemonData cmp calls b order s).state = s
      ∨ (∃ err, (fetchPokemonData cmp calls b order s).state = onCatch s err)
      ∨ (∃ ds, (fetchPokemonData cmp calls b order s).state = onLoaded s ds) := by
  rcases listing_cases b with ⟨e, hl⟩ | ⟨response, hl⟩
  · exact Or.inr (Or.inl ⟨e, by rw [fetch_listing_rejected cmp calls b order s e hl]⟩)
  · rcases results_cases response with ⟨e, hr⟩ | ⟨entries, hr⟩ | ⟨results, hr⟩
    · exact Or.inr (Or.inl
        ⟨e, by rw [fetch_results_unreadable cmp calls b order s response e hl hr]⟩)
    · rw [fetch_illTyped cmp calls b order s response entries hl hr]
      rcases sortEntries_cases cmp calls entries with ⟨e, hs⟩ | ⟨sorted, hs⟩
      · rw [hs]
        exact Or.inr (Or.inl ⟨e, rfl⟩)
      · rw [hs]
        exact fanOut_state_cases b order s _ _
    · have hshape := fetch_listing_ok cmp calls b order s response results hl hr
      rw [← fanOut_eq b order s (sortedArray cmp results) [results, sortedArray cmp results]]
        at hshape
      rw [hshape]
      exact fanOut_state_cases b order s _ _

/-- C7. The card of a detail record `d` depends on `d` alone. It is an element
of class `pokemon-card` holding one image whose `src` is
`d.sprites.front_default` and whose `alt` is "Imagem do " followed by `d.name`,
one heading with text `d.name`, and an element whose children are the text
"EXP: " followed by the number `d.base_experience`, so that the card reads
`d.name`, "EXP: " and that number as the renderer turns it into text; and in
the loaded state `App` renders exactly the cards of the records of
`pokemonList`, in order. -/
theorem Pokemon_card_contents (numberToString : Int → String) (d : DetailRecord) :
    cards (Pokemon d) = [Pokemon d]
      ∧ ((Pokemon d).byTag "img").map (fun n => (n.attr "src", n.attr "alt"))
          = [(some d.sprites.front_default, some ("Imagem do " ++ d.name))]
      ∧ ((Pokemon d).byTag "h3").map (Node.textContent numberToString) = [d.name]
      ∧ (Pokemon d).byTag "div"
          = [Pokemon d, .elem "div" [] [.text "EXP: ", .number d.base_experience]]
      ∧ ((Pokemon d).byTag "span").map (Node.textContent numberToString)
          = [d.name ++ ("EXP: " ++ numberToString d.base_experience)]
      ∧ (∀ s : State, s.loading = false → s.error = none →
          cards (App s) = s.pokemonList.map Pokemon) := by
  refine ⟨?_, ?_, ?_, ?_, ?_, cards_App_loaded⟩
  · simp [cards, Pokemon, Node.byClass, Node.byClassList, List.lookup]
  · simp [Pokemon, Node.byTag, Node.byTagList, Node.attr, List.lookup]
  · simp [Pokemon, Node.byTag, Node.byTagList, Node.textContent, Node.textContentList]
  · simp [Pokemon, Node.byTag, Node.byTagList]
  · simp [Pokemon, Node.byTag, Node.byTagList, Node.textContent, Node.textContentList]

/-- Witness of C7: the loaded state of scenario A shows the cards of
bulbasaur and pikachu, and the card of pikachu reads "pikachu", "EXP: ", "112". -/
theorem Pokemon_card_contents_witness :
    cards (App ⟨[record 1 "bulbasaur" 64, record 25 "pikachu" 112], false, none⟩)
        = [Pokemon (record 1 "bulbasaur" 64), Pokemon (record 25 "pikachu" 112)]
      ∧ ((Pokemon (record 25 "pikachu" 112)).byTag "span").map (Node.textContent decimal)
        = ["pikachu" ++ ("EXP: " ++ "112")] :=
  ⟨(Pokemon_card_contents decimal (record 1 "bulbasaur" 64)).2.2.2.2.2
      ⟨[record 1 "bulbasaur" 64, record 25 "pikachu" 112], false, none⟩ rfl rfl,
   (Pokemon_card_contents decimal (record 25 "pikachu" 112)).2.2.2.2.1⟩

/-- C8. The view of `App` is one of three: the loading indicator
"Carregando..." when `loading` is true; otherwise, when an error is stored,
"Erro: " followed by its message, with no card; otherwise the heading and
the container holding the card of every record of `pokemonList`. A load
cycle that stores an error therefore shows the prefixed message and no card. -/
theorem view_is_loading_error_or_collection (s : State) :
    (s.loading = true → App s = .elem "div" [] [.text "Carregando..."])
      ∧ (s.loading = false → ∀ e, s.error = some e →
          App s = .elem "div" [] [.text "Erro: ", .text e.message] ∧ cards (App s) = [])
      ∧ (s.loading = false → s.error = none →
          App s = .elem "div" [("className", "App")]
              [ .elem "h1" [] [.text "Pokémons"],
                .elem "hr" [] [],
                .elem "div" [("className", "pokemon-container")] (s.pokemonList.map Pokemon) ]
            ∧ cards (App s) = s.pokemonList.map Pokemon)
      ∧ (∀ (cmp : String → String → Int) (calls : Comparisons) (b : Backend)
          (order : List Nat) (numberToString : Int → String) (e : Err),
          (fetchPokemonData cmp calls b order State.initial).state.error = some e →
          App (fetchPokemonData cmp calls b order State.initial).state
              = .elem "div" [] [.text "Erro: ", .text e.message]
            ∧ (App (fetchPokemonData cmp calls b order State.initial).state).textContent
                numberToString
              = "Erro: " ++ e.message
            ∧ cards (App (fetchPokemonData cmp calls b order State.initial).state) = []) := by
  refine ⟨?_, ?_, ?_, ?_⟩
  · intro hl
    simp [App, hl]
  · intro hl e he
    exact ⟨by simp [App, hl, he], cards_App_error s e hl he⟩
  · intro hl he
    exact ⟨by simp [App, hl, he], cards_App_loaded s hl he⟩
  · intro cmp calls b order numberToString e he
    have hload : (fetchPokemonData cmp calls b order State.initial).state.loading = false := by
      rcases fetch_state_cases cmp calls b order State.initial with h | ⟨err, h⟩ | ⟨ds, h⟩
      · rw [h] at he; cases he
      · rw [h]; rfl
      · rw [h]; rfl
    have hview : App (fetchPokemonData cmp calls b order State.initial).state
        = .elem "div" [] [.text "Erro: ", .text e.message] := by
      simp [App, hload, he]
    refine ⟨hview, ?_, cards_App_error _ e hload he⟩
    rw [hview]
    simp [Node.textContent, Node.textContentList]

/-- Witness of C8: scenario B ends with the view "Erro: timeout of 1000ms
exceeded" and no card. -/
theorem view_is_loading_error_or_collection_witness :
    (App (fetchPokemonData ordinalCompare adjacentCalls scenarioB [1, 0]
        State.initial).state).textContent decimal
        = "Erro: " ++ "timeout of 1000ms exceeded"
      ∧ cards (App (fetchPokemonData ordinalCompare adjacentCalls scenarioB [1, 0] State.initial).state) = [] := by
  have h := (view_is_loading_error_or_collection State.initial).2.2.2 ordinalCompare
    adjacentCalls scenarioB [1, 0] decimal ⟨"timeout of 1000ms exceeded"⟩ (by decide)
  exact ⟨h.2.1, h.2.2⟩

/-- C9. The copy-and-sort step leaves the listing response untouched: after
the load cycle the array `response.data.results` holds the same references in
the same order, and the sorted references live in a different array. -/
theorem response_results_not_mutated (cmp : String → String → Int) (calls : Comparisons)
    (b : Backend)
    (order : List Nat) (s : State) (response : Response) (results : List SummaryRef)
    (hl : b.listing POKEMON_API_URL = Except.ok response)
    (hr : response.results = Except.ok results) :
    (fetchPokemonData cmp calls b order s).heap.read resultsAddr = results
      ∧ (copyAndSort cmp [results] resultsAddr).2 ≠ resultsAddr
      ∧ (fetchPokemonData cmp calls b order s).heap.read (copyAndSort cmp [results] resultsAddr).2
          = sortedArray cmp results := by
  rw [fetch_listing_ok cmp calls b order s response results hl hr, copyAndSort_results]
  simp [Heap.read, resultsAddr]

/-- Witness of C9: with pikachu listed before bulbasaur, the response still
lists pikachu first after the cycle, while `sortedArray` starts with bulbasaur. -/
theorem response_results_not_mutated_witness :
    (fetchPokemonData ordinalCompare adjacentCalls scenarioA_reversed [1, 0] State.initial).heap.read resultsAddr
        = [⟨"pikachu", "pokemon/25"⟩, ⟨"bulbasaur", "pokemon/1"⟩]
      ∧ (fetchPokemonData ordinalCompare adjacentCalls scenarioA_reversed [1, 0] State.initial).heap.read 1
        = [⟨"bulbasaur", "pokemon/1"⟩, ⟨"pikachu", "pokemon/25"⟩] := by
  have h := response_results_not_mutated ordinalCompare adjacentCalls scenarioA_reversed [1, 0] State.initial
    ⟨.ok _⟩ _ rfl rfl
  exact ⟨h.1, h.2.2⟩

/-- A rejected aggregate promise carries the rejection of one of its inputs. -/
theorem promiseAll_error_inv {ε α : Type} (outcomes : List (Except ε α)) (order : List Nat)
    (e : ε) (h : promiseAll outcomes order = some (Except.error e)) :
    Except.error e ∈ outcomes := by
  have hres := (AllInv.fold outcomes order).res
  unfold promiseAll at h
  rw [h] at hres
  cases hfr : firstRejection outcomes order with
  | some e' =>
    rw [hfr] at hres
    simp at hres
    subst hres
    exact firstRejection_mem outcomes order e hfr
  | none =>
    rw [hfr] at hres
    simp only at hres
    split_ifs at hres
    cases hres

/-- Counterexample to C10 as stated: on `twoFailures` both detail fetches
fail, with different failures; the activation in which charmander's fetch
settles first and the one in which squirtle's does end with different stored
errors. -/
theorem activations_identical_counterexample :
    AllSettle 2 [0, 1] ∧ AllSettle 2 [1, 0]
      ∧ (fetchPokemonData ordinalCompare adjacentCalls twoFailures [0, 1] State.initial).state
          = ⟨[], false, some ⟨"timeout of 1000ms exceeded"⟩⟩
      ∧ (fetchPokemonData ordinalCompare adjacentCalls twoFailures [1, 0] State.initial).state
          = ⟨[], false, some ⟨"Request failed with status code 500"⟩⟩
      ∧ (fetchPokemonData ordinalCompare adjacentCalls twoFailures [0, 1] State.initial).state
          ≠ (fetchPokemonData ordinalCompare adjacentCalls twoFailures [1, 0] State.initial).state := by
  decide

/-- Two runs of the fan-out over the same sorted references that both end
agree on the collection, on `loading`, on the cards and on whether an error is
stored; they agree on the whole state when the rejected detail fetches all
carry the same failure. -/
theorem fanOut_agree (b : Backend) (order1 order2 : List Nat) (sorted : List SummaryRef)
    (heap1 heap2 : Heap)
    (h1 : (fanOut b order1 State.initial sorted heap1).state.loading = false)
    (h2 : (fanOut b order2 State.initial sorted heap2).state.loading = false) :
    (fanOut b order1 State.initial sorted heap1).state.pokemonList
        = (fanOut b order2 State.initial sorted heap2).state.pokemonList
      ∧ (fanOut b order1 State.initial sorted heap1).state.loading
        = (fanOut b order2 State.initial sorted heap2).state.loading
      ∧ ((fanOut b order1 State.initial sorted heap1).state.error = none
        ↔ (fanOut b order2 State.initial sorted heap2).state.error = none)
      ∧ cards (App (fanOut b order1 State.initial sorted heap1).state)
        = cards (App (fanOut b order2 State.initial sorted heap2).state)
      ∧ ((∀ u1 ∈ sorted.map (fun pokemon => pokemon.url),
            ∀ u2 ∈ sorted.map (fun pokemon => pokemon.url), ∀ e1 e2 : Err,
            b.detail u1 = Except.error e1 → b.detail u2 = Except.error e2 → e1 = e2) →
        (fanOut b order1 State.initial sorted heap1).state
          = (fanOut b order2 State.initial sorted heap2).state) := by
  rw [fanOut_eq] at h1 h2 ⊢
  rw [fanOut_eq]
  have hurl : ∀ e : Err, Except.error e ∈ sorted.map (fetchDetail b) →
      ∃ u ∈ sorted.map (fun pokemon => pokemon.url), b.detail u = Except.error e := by
    intro e he
    obtain ⟨r, hr, hfd⟩ := List.mem_map.mp he
    refine ⟨r.url, List.mem_map.mpr ⟨r, hr, rfl⟩, ?_⟩
    unfold fetchDetail at hfd
    split at hfd
    · rename_i e' he'
      rw [he']
      simpa using hfd
    · cases hfd
  cases hp1 : promiseAll (sorted.map (fetchDetail b)) order1 with
  | none => rw [hp1] at h1; cases h1
  | some r1 =>
    cases hp2 : promiseAll (sorted.map (fetchDetail b)) order2 with
    | none => rw [hp2] at h2; cases h2
    | some r2 =>
      cases r1 with
      | ok vs1 =>
        have hv1 := promiseAll_ok_inv _ order1 vs1 hp1
        cases r2 with
        | ok vs2 =>
          have hv2 := promiseAll_ok_inv _ order2 vs2 hp2
          have hvs : vs1 = vs2 := by
            have hinj : Function.Injective
                (Except.ok : DetailRecord → Except Err DetailRecord) :=
              fun a b hab => by cases hab; rfl
            exact List.map_injective_iff.mpr hinj (hv1.trans hv2.symm)
          subst hvs
          exact ⟨rfl, rfl, Iff.rfl, rfl, fun _ => rfl⟩
        | error e2 =>
          exfalso
          have hmem := promiseAll_error_inv _ order2 e2 hp2
          rw [← hv1] at hmem
          simp at hmem
      | error e1 =>
        cases r2 with
        | ok vs2 =>
          exfalso
          have hv2 := promiseAll_ok_inv _ order2 vs2 hp2
          have hmem := promiseAll_error_inv _ order1 e1 hp1
          rw [← hv2] at hmem
          simp at hmem
        | error e2 =>
          refine ⟨rfl, rfl, ?_, ?_, ?_⟩
          · simp [onCatch]
          · rw [cards_App_error _ e1 rfl rfl, cards_App_error _ e2 rfl rfl]
          · intro hsame
            obtain ⟨u1, hu1, hd1⟩ := hurl e1 (promiseAll_error_inv _ order1 e1 hp1)
            obtain ⟨u2, hu2, hd2⟩ := hurl e2 (promiseAll_error_inv _ order2 e2 hp2)
            have := hsame u1 hu1 u2 hu2 e1 e2 hd1 hd2
            subst this
            rfl

/-- C10, amended. For a fixed backend, any two activations of the loader from
the initial state that both end (`loading = false`) leave the same
`pokemonList`, the same `loading`, the same rendered cards, and either both an
error or both none; and they end in identical final states whenever the detail
fetches that fail all carry the same failure, in particular when none or only
one of them fails. -/
theorem activations_agree (cmp : String → String → Int) (calls : Comparisons) (b : Backend)
    (order1 order2 : List Nat)
    (h1 : (fetchPokemonData cmp calls b order1 State.initial).state.loading = false)
    (h2 : (fetchPokemonData cmp calls b order2 State.initial).state.loading = false) :
    (fetchPokemonData cmp calls b order1 State.initial).state.pokemonList
        = (fetchPokemonData cmp calls b order2 State.initial).state.pokemonList
      ∧ (fetchPokemonData cmp calls b order1 State.initial).state.loading
        = (fetchPokemonData cmp calls b order2 State.initial).state.loading
      ∧ ((fetchPokemonData cmp calls b order1 State.initial).state.error = none
        ↔ (fetchPokemonData cmp calls b order2 State.initial).state.error = none)
      ∧ cards (App (fetchPokemonData cmp calls b order1 State.initial).state)
        = cards (App (fetchPokemonData cmp calls b order2 State.initial).state)
      ∧ ((∀ u1 ∈ detailRequests (fetchPokemonData cmp calls b order1 State.initial),
            ∀ u2 ∈ detailRequests (fetchPokemonData cmp calls b order1 State.initial),
            ∀ e1 e2 : Err,
            b.detail u1 = Except.error e1 → b.detail u2 = Except.error e2 → e1 = e2) →
        (fetchPokemonData cmp calls b order1 State.initial).state
          = (fetchPokemonData cmp calls b order2 State.initial).state) := by
  rcases listing_cases b with ⟨e, hl⟩ | ⟨response, hl⟩
  · have hsame : (fetchPokemonData cmp calls b order1 State.initial).state
        = (fetchPokemonData cmp calls b order2 State.initial).state := by
      rw [fetch_listing_rejected cmp calls b order1 _ e hl,
        fetch_listing_rejected cmp calls b order2 _ e hl]
    rw [hsame]
    exact ⟨rfl, rfl, Iff.rfl, rfl, fun _ => rfl⟩
  · rcases results_cases response with ⟨e, hr⟩ | ⟨entries, hr⟩ | ⟨results, hr⟩
    · have hsame : (fetchPokemonData cmp calls b order1 State.initial).state
          = (fetchPokemonData cmp calls b order2 State.initial).state := by
        rw [fetch_results_unreadable cmp calls b order1 _ response e hl hr,
          fetch_results_unreadable cmp calls b order2 _ response e hl hr]
      rw [hsame]
      exact ⟨rfl, rfl, Iff.rfl, rfl, fun _ => rfl⟩
    · rw [fetch_illTyped cmp calls b order1 _ response entries hl hr] at h1 ⊢
      rw [fetch_illTyped cmp calls b order2 _ response entries hl hr] at h2 ⊢
      rcases sortEntries_cases cmp calls entries with ⟨e, hs⟩ | ⟨sorted, hs⟩
      · rw [hs]
        exact ⟨rfl, rfl, Iff.rfl, rfl, fun _ => rfl⟩
      · rw [hs] at h1 h2 ⊢
        have hreq : detailRequests (fanOut b order1 State.initial (sorted.map Entry.toRef)
            [entries.map Entry.toRef, sorted.map Entry.toRef])
            = (sorted.map Entry.toRef).map (fun pokemon => pokemon.url) := by
          rw [fanOut_eq]; rfl
        simp only [hreq]
        exact fanOut_agree b order1 order2 _ _ _ h1 h2
    · have e1 := fetch_listing_ok cmp calls b order1 State.initial response results hl hr
      have e2 := fetch_listing_ok cmp calls b order2 State.initial response results hl hr
      rw [← fanOut_eq b order1 State.initial (sortedArray cmp results)
        [results, sortedArray cmp results]] at e1
      rw [← fanOut_eq b order2 State.initial (sortedArray cmp results)
        [results, sortedArray cmp results]] at e2
      rw [e1] at h1 ⊢
      rw [e2] at h2 ⊢
      have hreq : detailRequests (fanOut b order1 State.initial (sortedArray cmp results)
          [results, sortedArray cmp results])
          = (sortedArray cmp results).map (fun pokemon => pokemon.url) := by
        rw [fanOut_eq]; rfl
      simp only [hreq]
      exact fanOut_agree b order1 order2 _ _ _ h1 h2

/-- Witness of C10, amended: on scenario B only the charmander fetch fails; the
activation that ends as soon as it fails and the one in which squirtle's fetch
settles first end in the same state. -/
theorem activations_agree_witness :
    (fetchPokemonData ordinalCompare adjacentCalls scenarioB [0] State.initial).state
      = (fetchPokemonData ordinalCompare adjacentCalls scenarioB [1, 0] State.initial).state := by
  refine (activations_agree ordinalCompare adjacentCalls scenarioB [0] [1, 0]
    (by decide) (by decide)).2.2.2.2 ?_
  have hreq : detailRequests
      (fetchPokemonData ordinalCompare adjacentCalls scenarioB [0] State.initial)
      = ["pokemon/4", "pokemon/7"] := by decide
  have h4 : scenarioB.detail "pokemon/4" = Except.error ⟨"timeout of 1000ms exceeded"⟩ := rfl
  have h7 : scenarioB.detail "pokemon/7" = Except.ok ⟨record 7 "squirtle" 63⟩ := rfl
  rw [hreq]
  intro u1 hu1 u2 hu2 e1 e2 hd1 hd2
  simp only [List.mem_cons, List.mem_singleton, List.not_mem_nil, or_false] at hu1 hu2
  rcases hu1 with rfl | rfl
  · rcases hu2 with rfl | rfl
    · rw [h4] at hd1 hd2
      cases hd1
      cases hd2
      rfl
    · rw [h7] at hd2
      cases hd2
  · rw [h7] at hd1
    cases hd1

end PokemonApp
